/-
Verification of FinDocGPT against its specification.

Shallow embedding of the Python sources:
  src/core/cache_manager.py      (CacheManager)
  src/investment_strategy.py     (InvestmentStrategy, InvestmentAction)
  src/core/forecasting_models.py (ForecastingModels)
  src/core/financial_analyzer.py (FinancialAnalyzer)
  src/file_processor.py          (AdvancedFileProcessor)

Python floats are modelled as exact rationals (ℚ), Python ints as ℕ/ℤ,
dictionaries as association lists, `datetime` instants as rationals measured
in minutes.  Fallible code is modelled with Option.  Where the source calls
an external library whose behaviour is not part of this repository
(hashlib.md5, TextBlob, sklearn estimators, sqrt over floats), the embedding
takes that behaviour as an explicit function parameter, so every theorem
quantifies over it.
-/

import Mathlib

set_option autoImplicit false

namespace FinDocGPT

/-! ## CacheManager (src/core/cache_manager.py)

The cache store is a Python dict mapping string keys to
`{'data': ..., 'timestamp': ...}` entries.  We model it as an association
list with unique keys; timestamps and TTLs are rationals measured in
minutes, so `datetime.now() - timestamp < timedelta(minutes=ttl)` becomes
`now - timestamp < ttl`. -/

/-- One cached item: the `{'data': d, 'timestamp': t}` dict of `CacheManager.set`. -/
structure CacheEntry (α : Type) where
  data : α
  timestamp : ℚ
  deriving Repr, DecidableEq

/-- The cache store dict (`st.session_state.cache_store` / `self._cache_store`). -/
abbrev CacheStore (α : Type) := List (String × CacheEntry α)

/-- Dict lookup: `key in cache_store` / `cache_store[key]`. -/
def storeLookup {α : Type} : CacheStore α → String → Option (CacheEntry α)
  | [], _ => none
  | (k, e) :: rest, key => if k = key then some e else storeLookup rest key

/-- Dict deletion: `del cache_store[key]`. -/
def storeErase {α : Type} : CacheStore α → String → CacheStore α
  | [], _ => []
  | (k, e) :: rest, key =>
      if k = key then storeErase rest key else (k, e) :: storeErase rest key

/-- Dict assignment `cache_store[key] = entry` (insert or overwrite). -/
def storeInsert {α : Type} (store : CacheStore α) (key : String) (e : CacheEntry α) :
    CacheStore α :=
  (key, e) :: storeErase store key

/-- `CacheManager._generate_key`: `f"{prefix}_{md5(json.dumps(params)).hexdigest()}"`.
The md5 hex digest of the serialized params is an external-library function,
taken here as the parameter `md5hex` applied to the serialized params string. -/
def generateKey (md5hex : String → String) (pfx paramStr : String) : String :=
  pfx ++ "_" ++ md5hex paramStr

/-- `CacheManager.get`: returns the cached data if the entry is younger than
`ttl_minutes`, deletes the entry and returns None if it has expired, returns
None when the key is absent.  The result pairs the returned value with the
cache store after the call (the store is mutated by the expiry deletion). -/
def CacheManager.get {α : Type} (md5hex : String → String) (store : CacheStore α)
    (pfx paramStr : String) (ttlMinutes now : ℚ) : Option α × CacheStore α :=
  let key := generateKey md5hex pfx paramStr
  match storeLookup store key with
  | some cachedItem =>
      if now - cachedItem.timestamp < ttlMinutes then
        (some cachedItem.data, store)
      else
        (none, storeErase store key)
  | none => (none, store)

/-- `CacheManager.set`: `cache_store[key] = {'data': data, 'timestamp': datetime.now()}`. -/
def CacheManager.set {α : Type} (md5hex : String → String) (store : CacheStore α)
    (pfx paramStr : String) (data : α) (now : ℚ) : CacheStore α :=
  let key := generateKey md5hex pfx paramStr
  storeInsert store key ⟨data, now⟩

theorem storeLookup_insert_self {α : Type} (store : CacheStore α) (key : String)
    (e : CacheEntry α) : storeLookup (storeInsert store key e) key = some e := by
  simp [storeInsert, storeLookup]

theorem storeLookup_erase_self {α : Type} (store : CacheStore α) (key : String) :
    storeLookup (storeErase store key) key = none := by
  induction store with
  | nil => simp [storeErase, storeLookup]
  | cons kv rest ih =>
      obtain ⟨k, e⟩ := kv
      by_cases hk : k = key
      · simpa [storeErase, hk] using ih
      · simpa [storeErase, storeLookup, hk] using ih

theorem storeLookup_erase_other {α : Type} (store : CacheStore α) (key k : String)
    (hne : k ≠ key) : storeLookup (storeErase store key) k = storeLookup store k := by
  have hkk : ¬ key = k := fun h => hne h.symm
  induction store with
  | nil => rfl
  | cons kv rest ih =>
      obtain ⟨k', e⟩ := kv
      by_cases hk : k' = key
      · rw [storeErase, if_pos hk, ih, storeLookup, hk, if_neg hkk]
      · rw [storeErase, if_neg hk, storeLookup, storeLookup]
        by_cases hk2 : k' = k
        · rw [if_pos hk2, if_pos hk2]
        · rw [if_neg hk2, if_neg hk2, ih]

theorem storeLookup_insert_other {α : Type} (store : CacheStore α) (key k : String)
    (e : CacheEntry α) (hne : k ≠ key) :
    storeLookup (storeInsert store key e) k = storeLookup store k := by
  rw [storeInsert, storeLookup, if_neg (fun h => hne h.symm)]
  exact storeLookup_erase_other store key k hne

/-- C1.  Cache round trip with per-call TTL: after `set` stores a value at
time `t0`, a `get` with the same prefix and params at time `t1` returns
exactly the stored value when `t1 - t0 < ttl`, and returns `none` when
`ttl ≤ t1 - t0` (the entry is stale after the TTL duration). -/
theorem cache_roundtrip_ttl {α : Type} (md5hex : String → String)
    (store : CacheStore α) (pfx paramStr : String) (value : α) (t0 t1 ttl : ℚ) :
    (t1 - t0 < ttl →
      (CacheManager.get md5hex (CacheManager.set md5hex store pfx paramStr value t0)
        pfx paramStr ttl t1).1 = some value) ∧
    (ttl ≤ t1 - t0 →
      (CacheManager.get md5hex (CacheManager.set md5hex store pfx paramStr value t0)
        pfx paramStr ttl t1).1 = none) := by
  have hlook := storeLookup_insert_self store (generateKey md5hex pfx paramStr)
    (⟨value, t0⟩ : CacheEntry α)
  constructor
  · intro hfresh
    simp [CacheManager.get, CacheManager.set, hlook, hfresh]
  · intro hstale
    simp [CacheManager.get, CacheManager.set, hlook, not_lt.mpr hstale]

/-- Witness for C1: a concrete round trip, fresh at `t1 = 1` with TTL 2,
stale at `t1 = 3` with TTL 2 (entry set at `t0 = 0`). -/
theorem cache_roundtrip_ttl_witness :
    (CacheManager.get (fun _ => "h")
      (CacheManager.set (fun _ => "h") ([] : CacheStore ℕ) "stock_data" "p" 7 0)
      "stock_data" "p" 2 1).1 = some 7 ∧
    (CacheManager.get (fun _ => "h")
      (CacheManager.set (fun _ => "h") ([] : CacheStore ℕ) "stock_data" "p" 7 0)
      "stock_data" "p" 2 3).1 = none :=
  ⟨(cache_roundtrip_ttl (fun _ => "h") [] "stock_data" "p" 7 0 1 2).1 (by norm_num),
   (cache_roundtrip_ttl (fun _ => "h") [] "stock_data" "p" 7 0 3 2).2 (by norm_num)⟩

/-- C9.  Cache reads mutate state and writes are framed: when `get` finds an
entry whose age is at least the per-call TTL it returns `none` and deletes
the entry, so every later `get` for the same key — with any TTL, however
large — on the resulting store also returns `none`; and `set` touches only
the single key derived from its (prefix, params) arguments, leaving the
entry under every other key unchanged. -/
theorem cache_get_expires_and_set_frame {α : Type} (md5hex : String → String)
    (store : CacheStore α) (pfx paramStr : String) (ttl now : ℚ) (e : CacheEntry α)
    (hfound : storeLookup store (generateKey md5hex pfx paramStr) = some e)
    (hstale : ttl ≤ now - e.timestamp) :
    (CacheManager.get md5hex store pfx paramStr ttl now).1 = none ∧
    (∀ ttl2 now2 : ℚ,
      (CacheManager.get md5hex (CacheManager.get md5hex store pfx paramStr ttl now).2
        pfx paramStr ttl2 now2).1 = none) ∧
    (∀ (value : α) (t0 : ℚ) (k : String), k ≠ generateKey md5hex pfx paramStr →
      storeLookup (CacheManager.set md5hex store pfx paramStr value t0) k =
        storeLookup store k) := by
  have hnl : ¬ now - e.timestamp < ttl := not_lt.mpr hstale
  refine ⟨?_, ?_, ?_⟩
  · simp [CacheManager.get, hfound, hnl]
  · intro ttl2 now2
    have hsnd : (CacheManager.get md5hex store pfx paramStr ttl now).2 =
        storeErase store (generateKey md5hex pfx paramStr) := by
      simp [CacheManager.get, hfound, hnl]
    rw [hsnd]
    simp [CacheManager.get, storeLookup_erase_self]
  · intro value t0 k hk
    exact storeLookup_insert_other store (generateKey md5hex pfx paramStr) k ⟨value, t0⟩ hk

/-- Witness for C9: a concrete stale entry (written at time 0, read at time 2
with TTL 1) is reported as a miss and is gone even for a TTL of 100 that
would have accepted it. -/
theorem cache_get_expires_and_set_frame_witness :
    (CacheManager.get (fun _ => "h")
      [("qa_response_h", (⟨5, 0⟩ : CacheEntry ℕ))] "qa_response" "p" 1 2).1 = none ∧
    (CacheManager.get (fun _ => "h")
      (CacheManager.get (fun _ => "h")
        [("qa_response_h", (⟨5, 0⟩ : CacheEntry ℕ))] "qa_response" "p" 1 2).2
      "qa_response" "p" 100 2).1 = none := by
  have h := cache_get_expires_and_set_frame (fun _ => "h")
    [("qa_response_h", (⟨5, 0⟩ : CacheEntry ℕ))] "qa_response" "p" 1 2
    ⟨5, 0⟩ (by simp [storeLookup, generateKey]) (by norm_num)
  exact ⟨h.1, h.2.1 100 2⟩

/-! ## InvestmentStrategy (src/investment_strategy.py)

Python dict arguments whose values mix numbers, strings and nested dicts
(the `technical_indicators` / `fundamental_data` parameters) are modelled as
association lists over a small value type `IVal`.  `.get(key, default)`
accesses are modelled by `getNum`/`getStr`, which fall back to the default
when the key is absent; a key bound to a value of the wrong shape also falls
back to the default (the Python comparisons against such a value are all
false, taking the same branch). -/

/-- A Python dict value: number, string, or nested dict. -/
inductive IVal where
  | num (q : ℚ)
  | str (s : String)
  | dict (entries : List (String × IVal))
  deriving Repr, BEq

/-- A Python dict with string keys (e.g. `technical_indicators`). -/
abbrev PyDict := List (String × IVal)

/-- Dict lookup, `d.get(k)` (None when absent). -/
def dictLookup : PyDict → String → Option IVal
  | [], _ => none
  | (k, v) :: rest, key => if k = key then some v else dictLookup rest key

/-- `d.get(k, default)` for a numeric value. -/
def getNum (d : PyDict) (key : String) (default : ℚ) : ℚ :=
  match dictLookup d key with
  | some (.num q) => q
  | _ => default

/-- `d.get(k, default)` for a string value. -/
def getStr (d : PyDict) (key : String) (default : String) : String :=
  match dictLookup d key with
  | some (.str s) => s
  | _ => default

/-- `d.get(k) == v` for a string literal `v` (false when the key is absent,
as Python `None == v` is false). -/
def isStrEq (d : PyDict) (key v : String) : Bool :=
  match dictLookup d key with
  | some (.str s) => s = v
  | _ => false

/-- `indicators.get('volume_analysis', {}).get('volume_signal', 'Normal')`. -/
def volumeSignal (d : PyDict) : String :=
  match dictLookup d "volume_analysis" with
  | some (.dict vd) => getStr vd "volume_signal" "Normal"
  | _ => "Normal"

/-- The `InvestmentAction` enum of src/investment_strategy.py. -/
inductive InvestmentAction where
  | STRONG_BUY
  | BUY
  | HOLD
  | WEAK_SELL
  | SELL
  deriving Repr, DecidableEq

/-- The string value each enum member carries. -/
def InvestmentAction.value : InvestmentAction → String
  | .STRONG_BUY => "Strong Buy"
  | .BUY => "Buy"
  | .HOLD => "Hold"
  | .WEAK_SELL => "Weak Sell"
  | .SELL => "Sell"

/-- The `InvestmentRecommendation` dataclass. -/
structure InvestmentRecommendation where
  symbol : String
  action : InvestmentAction
  confidence : ℚ
  target_price : ℚ
  reasoning : String
  risk_level : String
  time_horizon : String
  deriving Repr, DecidableEq

/-- `np.mean` over a list of rationals (0 on the empty list; the source never
takes the mean of an empty list on the paths modelled here). -/
def listMean (xs : List ℚ) : ℚ := xs.sum / xs.length

/-- `InvestmentStrategy._determine_action`: ordered threshold checks mapping
(expected_return, combined_score, sentiment_score) to an action and a
confidence. -/
def determineAction (expectedReturn combinedScore sentimentScore : ℚ) :
    InvestmentAction × ℚ :=
  if expectedReturn > 10 ∧ combinedScore > 7/10 ∧ sentimentScore > 1/5 then
    (.STRONG_BUY, 9/10)
  else if expectedReturn > 5 ∧ combinedScore > 3/5 then
    (.BUY, 4/5)
  else if expectedReturn < -10 ∨ (combinedScore < 3/10 ∧ sentimentScore < -(3/10)) then
    (.SELL, 4/5)
  else if expectedReturn < -5 ∨ combinedScore < 2/5 then
    (.WEAK_SELL, 7/10)
  else
    (.HOLD, if |expectedReturn| < 3 then 3/5 else 1/2)

/-- `InvestmentStrategy._calculate_technical_score`.  An empty indicators dict
returns the neutral 0.5 immediately (`if not indicators`). -/
def calculateTechnicalScore (indicators : PyDict) : ℚ :=
  let score : ℚ := 1/2
  if indicators.isEmpty then score
  else
    let rsi := getNum indicators "rsi" 50
    let score := if 30 ≤ rsi ∧ rsi ≤ 70 then score + 1/10
      else if rsi < 30 then score + 1/5
      else if rsi > 70 then score - 1/5
      else score
    let score := if isStrEq indicators "price_vs_ma20" "Above" then score + 1/10
      else score - 1/10
    let score := if isStrEq indicators "price_vs_ma50" "Above" then score + 1/10
      else score - 1/10
    let score := if volumeSignal indicators = "High" then score + 1/20 else score
    let overallTrend := getStr indicators "overall_trend" "Neutral"
    let score := if overallTrend = "Bullish" then score + 3/20
      else if overallTrend = "Bearish" then score - 3/20
      else score
    max 0 (min 1 score)

/-- `InvestmentStrategy._calculate_fundamental_score`.  `if pe_ratio:` is
Python truthiness: absent, non-numeric or zero skips the P/E adjustment. -/
def calculateFundamentalScore (d : PyDict) : ℚ :=
  if d.isEmpty then 1/2
  else
    let score : ℚ := 1/2
    let score := match dictLookup d "pe_ratio" with
      | some (.num pe) =>
          if pe ≠ 0 then
            if 10 ≤ pe ∧ pe ≤ 20 then score + 1/5
            else if pe < 10 then score + 1/10
            else if pe > 30 then score - 1/10
            else score
          else score
      | _ => score
    let score := if getNum d "market_cap" 0 > 10000000000 then score + 1/20 else score
    let sector := getStr d "sector" ""
    let score := if sector = "Technology" ∨ sector = "Healthcare" ∨
        sector = "Consumer Discretionary" then score + 1/10 else score
    max 0 (min 1 score)

/-- `InvestmentStrategy._calculate_target_price`. -/
def calculateTargetPrice (currentPrice : ℚ) (predictedPrices : List ℚ)
    (indicators : PyDict) : ℚ :=
  if predictedPrices = [] then currentPrice
  else
    let baseTarget := listMean predictedPrices
    let adjustmentFactor : ℚ := 1
    let adjustmentFactor := if isStrEq indicators "overall_trend" "Bullish" then
        adjustmentFactor * (21/20)
      else if isStrEq indicators "overall_trend" "Bearish" then
        adjustmentFactor * (19/20)
      else adjustmentFactor
    let volatility := getNum indicators "volatility" 0
    let adjustmentFactor := if volatility > currentPrice * (1/50) then
        adjustmentFactor * (49/50)
      else adjustmentFactor
    baseTarget * adjustmentFactor

/-- `InvestmentStrategy._assess_risk_level`. -/
def assessRiskLevel (technicalIndicators : PyDict) (fundamentalData : Option PyDict) :
    String :=
  let riskScore : ℚ := 0
  let volatility := getNum technicalIndicators "volatility" 0
  let currentPrice := getNum technicalIndicators "current_price" 100
  let volRatio := if currentPrice > 0 then volatility / currentPrice else 0
  let riskScore := if volRatio > 3/100 then riskScore + 2
    else if volRatio > 1/50 then riskScore + 1
    else riskScore
  let rsi := getNum technicalIndicators "rsi" 50
  let riskScore := if rsi > 80 ∨ rsi < 20 then riskScore + 1 else riskScore
  let riskScore := match fundamentalData with
    | some d => if ¬ d.isEmpty ∧ getNum d "market_cap" 0 < 1000000000 then riskScore + 1
        else riskScore
    | none => riskScore
  let riskScore := if volumeSignal technicalIndicators = "High" then riskScore + 1/2
    else riskScore
  if riskScore ≥ 3 then "High"
  else if riskScore ≥ 3/2 then "Medium"
  else "Low"

/-- Render a rational with one decimal digit, modelling Python's `f"{x:.1f}"`
on the corresponding float (round half away from zero on the exact rational;
the reasoning string is never inspected by a theorem below). -/
def formatQ1 (q : ℚ) : String :=
  let scaled : ℤ := if q ≥ 0 then ⌊q * 10 + 1/2⌋ else -⌊-q * 10 + 1/2⌋
  let sign := if scaled < 0 then "-" else ""
  sign ++ toString (scaled.natAbs / 10) ++ "." ++ toString (scaled.natAbs % 10)

/-- `InvestmentStrategy._generate_reasoning`. -/
def generateReasoning (expectedReturn sentimentScore technicalScore fundamentalScore : ℚ)
    (_action : InvestmentAction) : String :=
  let r1 := if expectedReturn > 5 then
      "Expected " ++ formatQ1 expectedReturn ++ "% price increase"
    else if expectedReturn < -5 then
      "Expected " ++ formatQ1 expectedReturn ++ "% price decrease"
    else
      "Modest price movement expected (" ++ formatQ1 expectedReturn ++ "%)"
  let r2 := if sentimentScore > 1/5 then "positive market sentiment"
    else if sentimentScore < -(1/5) then "negative market sentiment"
    else "neutral market sentiment"
  let r3 := if technicalScore > 3/5 then "strong technical indicators"
    else if technicalScore < 2/5 then "weak technical indicators"
    else "mixed technical signals"
  let r4 := if fundamentalScore > 3/5 then ["solid fundamentals"]
    else if fundamentalScore < 2/5 then ["concerning fundamentals"]
    else []
  "Recommendation based on: " ++ String.intercalate ", " ([r1, r2, r3] ++ r4)

/-- `InvestmentStrategy.generate_recommendation`.  `fundamental_data` defaults
to None; `x if fundamental_data else 0.5` treats both None and the empty dict
as falsy. -/
def generateRecommendation (symbol : String) (currentPrice : ℚ)
    (predictedPrices : List ℚ) (sentimentScore : ℚ)
    (technicalIndicators : PyDict) (fundamentalData : Option PyDict) :
    InvestmentRecommendation :=
  if predictedPrices = [] then
    { symbol := symbol
      action := .HOLD
      confidence := 1/2
      target_price := currentPrice
      reasoning := "Insufficient data for recommendation"
      risk_level := "Unknown"
      time_horizon := "N/A" }
  else
    let avgPredicted := listMean predictedPrices
    let expectedReturn := (avgPredicted - currentPrice) / currentPrice * 100
    let technicalScore := calculateTechnicalScore technicalIndicators
    let fundamentalScore := match fundamentalData with
      | some d => if d.isEmpty then 1/2 else calculateFundamentalScore d
      | none => 1/2
    let combinedScore :=
      2/5 * (expectedReturn / 100 + 1) +
      3/10 * (sentimentScore + 1) / 2 +
      1/5 * technicalScore +
      1/10 * fundamentalScore
    let ac := determineAction expectedReturn combinedScore sentimentScore
    let targetPrice := calculateTargetPrice currentPrice predictedPrices technicalIndicators
    let riskLevel := assessRiskLevel technicalIndicators fundamentalData
    let reasoning := generateReasoning expectedReturn sentimentScore technicalScore
      fundamentalScore ac.1
    { symbol := symbol
      action := ac.1
      confidence := ac.2
      target_price := targetPrice
      reasoning := reasoning
      risk_level := riskLevel
      time_horizon := "1-3 months" }

/-- C3.  Threshold rules determine the enumerated action: `_determine_action`
is total on its three scalar inputs, always yields one of the five enumerated
actions, and follows the ordered threshold checks of the source: Strong Buy
0.9, else Buy 0.8, else Sell 0.8, else Weak Sell 0.7, else Hold with 0.6 for
|expected_return| < 3 and 0.5 otherwise. -/
theorem determine_action_thresholds (er cs ss : ℚ) :
    ((determineAction er cs ss).1 = .STRONG_BUY ∨ (determineAction er cs ss).1 = .BUY ∨
     (determineAction er cs ss).1 = .HOLD ∨ (determineAction er cs ss).1 = .WEAK_SELL ∨
     (determineAction er cs ss).1 = .SELL) ∧
    (er > 10 ∧ cs > 7/10 ∧ ss > 1/5 → determineAction er cs ss = (.STRONG_BUY, 9/10)) ∧
    (¬(er > 10 ∧ cs > 7/10 ∧ ss > 1/5) → er > 5 ∧ cs > 3/5 →
      determineAction er cs ss = (.BUY, 4/5)) ∧
    (¬(er > 10 ∧ cs > 7/10 ∧ ss > 1/5) → ¬(er > 5 ∧ cs > 3/5) →
      er < -10 ∨ (cs < 3/10 ∧ ss < -(3/10)) →
      determineAction er cs ss = (.SELL, 4/5)) ∧
    (¬(er > 10 ∧ cs > 7/10 ∧ ss > 1/5) → ¬(er > 5 ∧ cs > 3/5) →
      ¬(er < -10 ∨ (cs < 3/10 ∧ ss < -(3/10))) → er < -5 ∨ cs < 2/5 →
      determineAction er cs ss = (.WEAK_SELL, 7/10)) ∧
    (¬(er > 10 ∧ cs > 7/10 ∧ ss > 1/5) → ¬(er > 5 ∧ cs > 3/5) →
      ¬(er < -10 ∨ (cs < 3/10 ∧ ss < -(3/10))) → ¬(er < -5 ∨ cs < 2/5) →
      determineAction er cs ss = (.HOLD, if |er| < 3 then 3/5 else 1/2)) := by
  unfold determineAction
  refine ⟨?_, ?_, ?_, ?_, ?_, ?_⟩
  · split_ifs <;> simp
  · intro h1; rw [if_pos h1]
  · intro h1 h2; rw [if_neg h1, if_pos h2]
  · intro h1 h2 h3; rw [if_neg h1, if_neg h2, if_pos h3]
  · intro h1 h2 h3 h4; rw [if_neg h1, if_neg h2, if_neg h3, if_pos h4]
  · intro h1 h2 h3 h4; rw [if_neg h1, if_neg h2, if_neg h3, if_neg h4]

/-- Witness for C3: concrete inputs in each of the five branches. -/
theorem determine_action_thresholds_witness :
    determineAction 20 1 1 = (.STRONG_BUY, 9/10) ∧
    determineAction 6 (13/20) 0 = (.BUY, 4/5) ∧
    determineAction (-20) (1/2) 0 = (.SELL, 4/5) ∧
    determineAction (-6) (1/2) 0 = (.WEAK_SELL, 7/10) ∧
    determineAction 1 (1/2) 0 = (.HOLD, 3/5) := by
  refine ⟨(determine_action_thresholds 20 1 1).2.1 (by norm_num),
    (determine_action_thresholds 6 (13/20) 0).2.2.1 (by norm_num) (by norm_num),
    (determine_action_thresholds (-20) (1/2) 0).2.2.2.1 (by norm_num) (by norm_num)
      (by norm_num),
    (determine_action_thresholds (-6) (1/2) 0).2.2.2.2.1 (by norm_num) (by norm_num)
      (by norm_num) (by norm_num),
    ?_⟩
  have h := (determine_action_thresholds 1 (1/2) 0).2.2.2.2.2 (by norm_num) (by norm_num)
    (by norm_num) (by norm_num)
  rw [h, if_pos (by norm_num : |(1 : ℚ)| < 3)]

/-- C8.  No crash on missing inputs: with an empty `predicted_prices` list,
`generate_recommendation` returns (totally, without raising) the fixed
Hold recommendation — confidence 0.5, target price equal to the current
price, risk level "Unknown" — and `_calculate_technical_score` of an empty
indicators dict is the neutral 0.5. -/
theorem recommendation_handles_missing_inputs (symbol : String) (currentPrice : ℚ)
    (sentimentScore : ℚ) (technicalIndicators : PyDict)
    (fundamentalData : Option PyDict) :
    generateRecommendation symbol currentPrice [] sentimentScore technicalIndicators
        fundamentalData =
      { symbol := symbol
        action := .HOLD
        confidence := 1/2
        target_price := currentPrice
        reasoning := "Insufficient data for recommendation"
        risk_level := "Unknown"
        time_horizon := "N/A" } ∧
    calculateTechnicalScore [] = 1/2 := by
  constructor
  · simp [generateRecommendation]
  · simp [calculateTechnicalScore]

/-! ## ForecastingModels (src/core/forecasting_models.py)

The three sklearn regressors are external library estimators; after
`fit`, each is a prediction function from a (scaled) feature vector to a
price.  The embedding takes each fitted model as an
`Option (List ℚ → ℚ)` — `none` when `model.fit`/`predict` raised and the
`except` clause skipped the model, `some f` when it fit successfully.
`StandardScaler.fit_transform` is likewise external; the iteration below
starts from the scaled last feature row exactly as the source does. -/

/-- `self.model_weights = {'random_forest': 0.4, 'gradient_boost': 0.4, 'linear': 0.2}`. -/
def modelWeights (name : String) : ℚ :=
  if name = "random_forest" then 2/5
  else if name = "gradient_boost" then 2/5
  else if name = "linear" then 1/5
  else 0

/-- The per-model single-step prediction loop of
`_generate_ensemble_predictions`: predict from the current feature row,
append `max(0, pred)`, then roll the feature row left and write the raw
prediction into its last slot (`np.roll(last_features, -1)`;
`last_features[-1] = pred`). -/
def modelIterPreds (predictF : List ℚ → ℚ) : List ℚ → ℕ → List ℚ
  | _, 0 => []
  | lastFeatures, days + 1 =>
      let pred := predictF lastFeatures
      max 0 pred :: modelIterPreds predictF (lastFeatures.tail ++ [pred]) days

/-- The `for name, model in self.models.items()` loop: the models that fit
successfully contribute their prediction list paired with their fixed
weight, in dict order. -/
def ensembleCollect (models : List (String × Option (List ℚ → ℚ)))
    (scaledLastFeatures : List ℚ) (days : ℕ) : List (List ℚ × ℚ) :=
  models.filterMap fun nm =>
    match nm.2 with
    | some f => some (modelIterPreds f scaledLastFeatures days, modelWeights nm.1)
    | none => none

/-- The final weighted blend: `sum(weight * preds[day] for preds, weight in
ensemble_predictions)` for each day; when every model failed the source
falls back to repeating the last close. -/
def finalPredictions (ensemblePredictions : List (List ℚ × ℚ)) (days : ℕ)
    (lastClose : ℚ) : List ℚ :=
  if ensemblePredictions = [] then List.replicate days lastClose
  else (List.range days).map fun day =>
    (ensemblePredictions.map fun pw => pw.2 * pw.1.getD day 0).sum

/-- `ForecastingModels._generate_ensemble_predictions` after feature
engineering: `numFeatures` is `len(features)` (fewer than 30 rows falls back
to repeating the last close), and the three fitted models are passed in the
fixed dict order random_forest, gradient_boost, linear. -/
def generateEnsemblePredictions (numFeatures : ℕ)
    (randomForest gradientBoost linear : Option (List ℚ → ℚ))
    (scaledLastFeatures : List ℚ) (days : ℕ) (lastClose : ℚ) : List ℚ :=
  if numFeatures < 30 then List.replicate days lastClose
  else finalPredictions
    (ensembleCollect
      [("random_forest", randomForest), ("gradient_boost", gradientBoost),
       ("linear", linear)]
      scaledLastFeatures days)
    days lastClose

theorem ensembleCollect_all_three (rfF gbF linF : List ℚ → ℚ)
    (features : List ℚ) (days : ℕ) :
    ensembleCollect
      [("random_forest", some rfF), ("gradient_boost", some gbF), ("linear", some linF)]
      features days =
    [(modelIterPreds rfF features days, 2/5), (modelIterPreds gbF features days, 2/5),
     (modelIterPreds linF features days, 1/5)] := by
  simp [ensembleCollect, modelWeights]

theorem getD_map_range {β : Type} (f : ℕ → β) (n day : ℕ) (d : β) (h : day < n) :
    ((List.range n).map f).getD day d = f day := by
  rw [List.getD_eq_getElem?_getD, List.getElem?_map, List.getElem?_range h]
  rfl

/-- C2.  Fixed-weight ensemble blend: when all three regressors fit
successfully, each day's final forecast is
`0.4 * rf + 0.4 * gb + 0.2 * linear` of that day's per-model predictions;
the weights are the same fixed constants for every day and sum to 1. -/
theorem ensemble_blend_fixed_weights (numFeatures : ℕ)
    (rfF gbF linF : List ℚ → ℚ) (features : List ℚ) (days : ℕ) (lastClose : ℚ)
    (hfeat : 30 ≤ numFeatures) (day : ℕ) (hday : day < days) :
    (generateEnsemblePredictions numFeatures (some rfF) (some gbF) (some linF)
        features days lastClose).getD day 0 =
      2/5 * (modelIterPreds rfF features days).getD day 0 +
      2/5 * (modelIterPreds gbF features days).getD day 0 +
      1/5 * (modelIterPreds linF features days).getD day 0 ∧
    modelWeights "random_forest" + modelWeights "gradient_boost" +
      modelWeights "linear" = 1 := by
  constructor
  · rw [generateEnsemblePredictions, if_neg (Nat.not_lt.mpr hfeat),
      ensembleCollect_all_three, finalPredictions,
      if_neg (by simp), getD_map_range _ _ _ _ hday]
    simp only [List.map_cons, List.map_nil, List.sum_cons, List.sum_nil]
    ring
  · rw [modelWeights, modelWeights, modelWeights,
      if_neg (by decide : ¬("gradient_boost" = "random_forest")),
      if_neg (by decide : ¬("linear" = "random_forest")),
      if_neg (by decide : ¬("linear" = "gradient_boost")),
      if_pos rfl, if_pos rfl]
    norm_num

/-- Witness for C2: the blend at day 0 over a one-day horizon with three
concrete fitted models. -/
theorem ensemble_blend_fixed_weights_witness :
    (generateEnsemblePredictions 30 (some fun l => l.headD 0) (some fun l => l.headD 0)
        (some fun l => l.headD 0) [2] 1 5).getD 0 0 =
      2/5 * (modelIterPreds (fun l => l.headD 0) [2] 1).getD 0 0 +
      2/5 * (modelIterPreds (fun l => l.headD 0) [2] 1).getD 0 0 +
      1/5 * (modelIterPreds (fun l => l.headD 0) [2] 1).getD 0 0 ∧
    modelWeights "random_forest" + modelWeights "gradient_boost" +
      modelWeights "linear" = 1 :=
  ensemble_blend_fixed_weights 30 (fun l => l.headD 0) (fun l => l.headD 0)
    (fun l => l.headD 0) [2] 1 5 (le_refl 30) 0 (by norm_num)

/-! ### Confidence intervals (`_calculate_confidence_intervals`)

This path runs on IEEE doubles, and NaN matters: `pandas.Series.std()` over
fewer than two observations is NaN, NaN propagates through the arithmetic,
and every ordered comparison against NaN is false.  A float of the source is
therefore modelled as `PyFloat`: NaN, a signed infinity, or an exact
rational (rounding is idealized away, as everywhere in this embedding).
`np.sqrt` on non-negative rationals is the function parameter `sqrtQ`; the
only NaN source on this path is the short-series std, modelled explicitly.
Python's builtin `max(a, b)`/`min(a, b)` return `b` exactly when `b > a`
(resp. `b < a`), which on floats keeps the first argument on NaN ties. -/

/-- An IEEE double of the source: NaN, a signed infinity (`neg` = sign), or
an exact rational. -/
inductive PyFloat where
  | nan
  | inf (neg : Bool)
  | val (q : ℚ)
  deriving Repr, DecidableEq

/-- Float negation. -/
def fNeg : PyFloat → PyFloat
  | .nan => .nan
  | .inf b => .inf !b
  | .val q => .val (-q)

/-- Float addition: NaN absorbs; opposite infinities give NaN. -/
def fAdd : PyFloat → PyFloat → PyFloat
  | .nan, _ => .nan
  | _, .nan => .nan
  | .inf a, .inf b => if a = b then .inf a else .nan
  | .inf a, .val _ => .inf a
  | .val _, .inf b => .inf b
  | .val a, .val b => .val (a + b)

/-- Float subtraction. -/
def fSub (a b : PyFloat) : PyFloat := fAdd a (fNeg b)

/-- Float multiplication: NaN absorbs; infinity times zero is NaN. -/
def fMul : PyFloat → PyFloat → PyFloat
  | .nan, _ => .nan
  | _, .nan => .nan
  | .inf a, .inf b => .inf (a != b)
  | .inf a, .val q => if q = 0 then .nan else .inf (a != decide (q < 0))
  | .val q, .inf b => if q = 0 then .nan else .inf (b != decide (q < 0))
  | .val a, .val b => .val (a * b)

/-- Float division.  A nonzero rational over zero gives a signed infinity
(the zero denominators reachable here are non-negative zeros, so the
divisor's sign is carried by the numerator); zero over zero gives NaN. -/
def fDiv : PyFloat → PyFloat → PyFloat
  | .nan, _ => .nan
  | _, .nan => .nan
  | .inf _, .inf _ => .nan
  | .inf a, .val q => .inf (a != decide (q < 0))
  | .val _, .inf _ => .val 0
  | .val a, .val b =>
      if b = 0 then (if a = 0 then .nan else .inf (decide (a < 0)))
      else .val (a / b)

/-- Float `<`: false whenever NaN is involved. -/
def fLt : PyFloat → PyFloat → Bool
  | .nan, _ => false
  | _, .nan => false
  | .inf a, .inf b => a && !b
  | .inf a, .val _ => a
  | .val _, .inf b => !b
  | .val a, .val b => decide (a < b)

/-- Float `<=`: false whenever NaN is involved. -/
def fLe : PyFloat → PyFloat → Bool
  | .nan, _ => false
  | _, .nan => false
  | .inf a, .inf b => a || !b
  | .inf a, .val _ => a
  | .val _, .inf b => !b
  | .val a, .val b => decide (a ≤ b)

/-- Python `max(a, b)`: `b if b > a else a`. -/
def fMax (a b : PyFloat) : PyFloat := if fLt a b then b else a

/-- Python `min(a, b)`: `b if b < a else a`. -/
def fMin (a b : PyFloat) : PyFloat := if fLt b a then b else a

/-- `pandas.Series.std()` (default `ddof=1`): NaN over fewer than two
observations, otherwise the square root of the sample variance. -/
def sampleStdF (sqrtQ : ℚ → ℚ) (xs : List ℚ) : PyFloat :=
  if 2 ≤ xs.length then
    .val (sqrtQ ((xs.map fun x => (x - listMean xs) ^ 2).sum / ((xs.length : ℚ) - 1)))
  else .nan

/-- `returns.tail(20)`: the last `n` elements. -/
def lastN {α : Type} (n : ℕ) (xs : List α) : List α := xs.drop (xs.length - n)

/-- `volatility = returns.std() * np.sqrt(252)`;
`recent_vol = returns.tail(20).std() * np.sqrt(252)`;
`effective_vol = max(volatility, recent_vol * 1.2)`. -/
def effectiveVolatilityF (sqrtQ : ℚ → ℚ) (closeReturns : List ℚ) : PyFloat :=
  fMax (fMul (sampleStdF sqrtQ closeReturns) (.val (sqrtQ 252)))
       (fMul (fMul (sampleStdF sqrtQ (lastN 20 closeReturns)) (.val (sqrtQ 252)))
         (.val (6/5)))

/-- `margin = z_score * pred * time_vol * 0.7` with
`time_vol = effective_vol * np.sqrt((i + 1) / 252)` and `z_score = 1.96`;
the prediction itself is a (non-NaN) number produced by the ensemble. -/
def predMarginF (sqrtQ : ℚ → ℚ) (effVol : PyFloat) (i : ℕ) (pred : ℚ) : PyFloat :=
  fMul (fMul (fMul (.val (49/25)) (.val pred))
    (fMul effVol (.val (sqrtQ (((i : ℚ) + 1) / 252))))) (.val (7/10))

/-- `prob_up = max(0.15, min(0.85, 0.5 + expected_return / (2 * effective_vol)))`
with `expected_return = (predictions[-1] - predictions[0]) / predictions[0]`. -/
def probabilityUpF (predictions : List ℚ) (effVol : PyFloat) : PyFloat :=
  let currentPrice := predictions.headD 100
  let finalPrice := predictions.getLastD currentPrice
  let expectedReturn := fDiv (.val (finalPrice - currentPrice)) (.val currentPrice)
  fMax (.val (3/20)) (fMin (.val (17/20))
    (fAdd (.val (1/2)) (fDiv expectedReturn (fMul (.val 2) effVol))))

/-- The dictionary `_calculate_confidence_intervals` returns on a non-empty
prediction list. -/
structure ConfidenceIntervalsF where
  upper_bounds : List PyFloat
  lower_bounds : List PyFloat
  confidence_level : ℚ
  probability_up : PyFloat
  probability_down : PyFloat
  effective_volatility : PyFloat
  deriving Repr

/-- The non-empty branch of `_calculate_confidence_intervals`: one loop over
`enumerate(predictions)` appending `pred + margin` to the upper bounds and
`max(0, pred - margin)` to the lower bounds. -/
def confidenceIntervalsCoreF (sqrtQ : ℚ → ℚ) (predictions closeReturns : List ℚ) :
    ConfidenceIntervalsF :=
  { upper_bounds := predictions.enum.map fun ip =>
      fAdd (.val ip.2) (predMarginF sqrtQ (effectiveVolatilityF sqrtQ closeReturns) ip.1 ip.2)
    lower_bounds := predictions.enum.map fun ip =>
      fMax (.val 0)
        (fSub (.val ip.2) (predMarginF sqrtQ (effectiveVolatilityF sqrtQ closeReturns) ip.1 ip.2))
    confidence_level := 19/20
    probability_up := probabilityUpF predictions (effectiveVolatilityF sqrtQ closeReturns)
    probability_down :=
      fSub (.val 1) (probabilityUpF predictions (effectiveVolatilityF sqrtQ closeReturns))
    effective_volatility := effectiveVolatilityF sqrtQ closeReturns }

/-- `ForecastingModels._calculate_confidence_intervals`: `{}` (here `none`)
on an empty prediction list, the populated dictionary otherwise. -/
def calculateConfidenceIntervalsF (sqrtQ : ℚ → ℚ) (predictions closeReturns : List ℚ) :
    Option ConfidenceIntervalsF :=
  if predictions = [] then none
  else some (confidenceIntervalsCoreF sqrtQ predictions closeReturns)

/-- C10, counterexample to the claim as stated.  A market-data history whose
close-return series has fewer than two observations (e.g. a single-row price
history) makes `returns.std()` NaN; the NaN propagates into every upper
bound, and `predictions[i] <= upper_bounds[i]` is false on floats.  Concrete
input: predictions `[100]` (non-empty, non-negative), returns `[]`. -/
theorem confidence_intervals_nan_history_refutes :
    calculateConfidenceIntervalsF (fun x => x) [100] [] =
      some (confidenceIntervalsCoreF (fun x => x) [100] []) ∧
    (confidenceIntervalsCoreF (fun x => x) [100] []).upper_bounds = [PyFloat.nan] ∧
    fLe (PyFloat.val 100) PyFloat.nan = false := by
  refine ⟨rfl, ?_, rfl⟩
  decide

theorem fMax_val_val (a b : ℚ) : fMax (.val a) (.val b) = .val (max a b) := by
  rw [fMax, fLt]
  by_cases h : a < b
  · simp [h, max_eq_right h.le]
  · simp [h, max_eq_left (not_lt.mp h)]

theorem fMin_val_val (a b : ℚ) : fMin (.val a) (.val b) = .val (min a b) := by
  rw [fMin, fLt]
  by_cases h : b < a
  · simp [h, min_eq_right h.le]
  · simp [h, min_eq_left (not_lt.mp h)]

theorem sampleStdF_val (sqrtQ : ℚ → ℚ) (hsqrt : ∀ x : ℚ, 0 ≤ x → 0 ≤ sqrtQ x)
    (xs : List ℚ) (hlen : 2 ≤ xs.length) :
    ∃ s : ℚ, sampleStdF sqrtQ xs = .val s ∧ 0 ≤ s := by
  refine ⟨_, by rw [sampleStdF, if_pos hlen], hsqrt _ (div_nonneg (List.sum_nonneg ?_) ?_)⟩
  · intro y hy
    obtain ⟨x, _, rfl⟩ := List.mem_map.mp hy
    exact sq_nonneg _
  · have : (2 : ℚ) ≤ xs.length := by exact_mod_cast hlen
    linarith

theorem effectiveVolatilityF_val (sqrtQ : ℚ → ℚ)
    (hsqrt : ∀ x : ℚ, 0 ≤ x → 0 ≤ sqrtQ x) (closeReturns : List ℚ)
    (hret : 2 ≤ closeReturns.length) :
    ∃ e : ℚ, effectiveVolatilityF sqrtQ closeReturns = .val e ∧ 0 ≤ e := by
  have hlen2 : 2 ≤ (lastN 20 closeReturns).length := by
    simp only [lastN, List.length_drop]
    omega
  obtain ⟨s1, hs1, hs1n⟩ := sampleStdF_val sqrtQ hsqrt closeReturns hret
  obtain ⟨s2, hs2, _⟩ := sampleStdF_val sqrtQ hsqrt (lastN 20 closeReturns) hlen2
  have h252 : 0 ≤ sqrtQ 252 := hsqrt 252 (by norm_num)
  refine ⟨max (s1 * sqrtQ 252) (s2 * sqrtQ 252 * (6/5)), ?_, ?_⟩
  · rw [effectiveVolatilityF, hs1, hs2]
    exact fMax_val_val _ _
  · exact le_max_of_le_left (mul_nonneg hs1n h252)

/-- The final clamp keeps any float — rational, infinite or NaN — inside
[0.15, 0.85] under Python's builtin min/max. -/
theorem clampF_mem_range (z : PyFloat) :
    fLe (.val (3/20)) (fMax (.val (3/20)) (fMin (.val (17/20)) z)) = true ∧
    fLe (fMax (.val (3/20)) (fMin (.val (17/20)) z)) (.val (17/20)) = true := by
  have hmax : fMax (.val (3/20)) (.val (17/20)) = .val (17/20) :=
    (fMax_val_val _ _).trans (congrArg PyFloat.val (max_eq_right (by norm_num)))
  have hself : fLe (PyFloat.val (17/20)) (.val (17/20)) = true := by
    simp only [fLe, decide_eq_true_eq]
    exact le_refl _
  have hlo : fLe (PyFloat.val (3/20)) (.val (17/20)) = true := by
    simp only [fLe, decide_eq_true_eq]
    norm_num
  cases z with
  | nan =>
      rw [show fMin (.val (17/20)) PyFloat.nan = .val (17/20) from rfl, hmax]
      exact ⟨hlo, hself⟩
  | inf b =>
      cases b with
      | false =>
          rw [show fMin (.val (17/20)) (PyFloat.inf false) = .val (17/20) from rfl, hmax]
          exact ⟨hlo, hself⟩
      | true =>
          rw [show fMax (.val (3/20)) (fMin (.val (17/20)) (PyFloat.inf true)) =
            .val (3/20) from rfl]
          constructor
          · simp only [fLe, decide_eq_true_eq]
            exact le_refl _
          · simp only [fLe, decide_eq_true_eq]
            norm_num
  | val q =>
      rw [fMin_val_val, fMax_val_val]
      constructor
      · simp only [fLe, decide_eq_true_eq]
        exact le_max_left _ _
      · simp only [fLe, decide_eq_true_eq]
        exact max_le (by norm_num) (min_le_left _ _)

/-- C10, amended.  For every non-empty list of non-negative predictions the
returned bounds lists have the predictions' length, `probability_up` lies in
[0.15, 0.85] and `probability_down = 1 - probability_up` (for every history,
NaN volatility included); and whenever the history's close-return series has
at least two observations — so pandas' std is a number rather than NaN —
`0 <= lower[i] <= predictions[i] <= upper[i]` holds under float comparison
at every index. -/
theorem confidence_intervals_invariant_amended (sqrtQ : ℚ → ℚ)
    (predictions closeReturns : List ℚ) (hne : predictions ≠ [])
    (hpos : ∀ p ∈ predictions, 0 ≤ p)
    (hsqrt : ∀ x : ℚ, 0 ≤ x → 0 ≤ sqrtQ x) :
    ∃ ci : ConfidenceIntervalsF,
      calculateConfidenceIntervalsF sqrtQ predictions closeReturns = some ci ∧
      ci.upper_bounds.length = predictions.length ∧
      ci.lower_bounds.length = predictions.length ∧
      (2 ≤ closeReturns.length →
        ∀ i : ℕ, i < predictions.length →
          fLe (.val 0) (ci.lower_bounds.getD i (.val 0)) = true ∧
          fLe (ci.lower_bounds.getD i (.val 0)) (.val (predictions.getD i 0)) = true ∧
          fLe (.val (predictions.getD i 0)) (ci.upper_bounds.getD i (.val 0)) = true) ∧
      fLe (.val (3/20)) ci.probability_up = true ∧
      fLe ci.probability_up (.val (17/20)) = true ∧
      ci.probability_down = fSub (.val 1) ci.probability_up := by
  obtain ⟨z, hz⟩ : ∃ z, probabilityUpF predictions (effectiveVolatilityF sqrtQ closeReturns) =
      fMax (.val (3/20)) (fMin (.val (17/20)) z) := ⟨_, rfl⟩
  refine ⟨confidenceIntervalsCoreF sqrtQ predictions closeReturns, ?_, ?_, ?_, ?_, ?_, ?_, rfl⟩
  · rw [calculateConfidenceIntervalsF, if_neg hne]
  · simp [confidenceIntervalsCoreF]
  · simp [confidenceIntervalsCoreF]
  · intro hret i hi
    obtain ⟨e, he, he0⟩ := effectiveVolatilityF_val sqrtQ hsqrt closeReturns hret
    have hgetp : predictions[i]? = some (predictions.getD i 0) := by
      rw [List.getD_eq_getElem?_getD, List.getElem?_eq_getElem hi]
      rfl
    have hp : 0 ≤ predictions.getD i 0 := hpos _ (List.getElem?_mem hgetp)
    set p := predictions.getD i 0 with hpdef
    set m := 49/25 * p * (e * sqrtQ (((i : ℚ) + 1) / 252)) * (7/10) with hmdef
    have hmargin : predMarginF sqrtQ (effectiveVolatilityF sqrtQ closeReturns) i p =
        .val m := by rw [he]; rfl
    have hm : 0 ≤ m := by
      rw [hmdef]
      have hsq : 0 ≤ sqrtQ (((i : ℚ) + 1) / 252) := hsqrt _ (by positivity)
      have h1 : 0 ≤ 49/25 * p := by linarith
      have h2 : 0 ≤ e * sqrtQ (((i : ℚ) + 1) / 252) := mul_nonneg he0 hsq
      have h3 : 0 ≤ 49/25 * p * (e * sqrtQ (((i : ℚ) + 1) / 252)) := mul_nonneg h1 h2
      linarith
    have hlow : (confidenceIntervalsCoreF sqrtQ predictions closeReturns).lower_bounds.getD i
        (.val 0) = .val (max 0 (p + -m)) := by
      simp only [confidenceIntervalsCoreF]
      rw [List.getD_eq_getElem?_getD, List.getElem?_map, List.getElem?_enum, hgetp]
      show fMax (.val 0) (fSub (.val p)
        (predMarginF sqrtQ (effectiveVolatilityF sqrtQ closeReturns) i p)) = _
      rw [hmargin, show fSub (.val p) (.val m) = .val (p + -m) from rfl, fMax_val_val]
    have hup : (confidenceIntervalsCoreF sqrtQ predictions closeReturns).upper_bounds.getD i
        (.val 0) = .val (p + m) := by
      simp only [confidenceIntervalsCoreF]
      rw [List.getD_eq_getElem?_getD, List.getElem?_map, List.getElem?_enum, hgetp]
      show fAdd (.val p)
        (predMarginF sqrtQ (effectiveVolatilityF sqrtQ closeReturns) i p) = _
      rw [hmargin]
      rfl
    refine ⟨?_, ?_, ?_⟩
    · rw [hlow]
      simp only [fLe, decide_eq_true_eq]
      exact le_max_left _ _
    · rw [hlow]
      simp only [fLe, decide_eq_true_eq]
      exact max_le hp (by linarith)
    · rw [hup]
      simp only [fLe, decide_eq_true_eq]
      linarith
  · show fLe (.val (3/20))
      (probabilityUpF predictions (effectiveVolatilityF sqrtQ closeReturns)) = true
    rw [hz]
    exact (clampF_mem_range z).1
  · show fLe (probabilityUpF predictions (effectiveVolatilityF sqrtQ closeReturns))
      (.val (17/20)) = true
    rw [hz]
    exact (clampF_mem_range z).2

/-- Witness for C10 (amended): the invariant at a one-element prediction
list over a two-observation return history. -/
theorem confidence_intervals_invariant_amended_witness :
    ∃ ci : ConfidenceIntervalsF,
      calculateConfidenceIntervalsF (fun x => x) [100] [0, 1/100] = some ci ∧
      ci.upper_bounds.length = [(100 : ℚ)].length ∧
      ci.lower_bounds.length = [(100 : ℚ)].length ∧
      (2 ≤ [(0 : ℚ), 1/100].length →
        ∀ i : ℕ, i < [(100 : ℚ)].length →
          fLe (.val 0) (ci.lower_bounds.getD i (.val 0)) = true ∧
          fLe (ci.lower_bounds.getD i (.val 0)) (.val ([(100 : ℚ)].getD i 0)) = true ∧
          fLe (.val ([(100 : ℚ)].getD i 0)) (ci.upper_bounds.getD i (.val 0)) = true) ∧
      fLe (.val (3/20)) ci.probability_up = true ∧
      fLe ci.probability_up (.val (17/20)) = true ∧
      ci.probability_down = fSub (.val 1) ci.probability_up :=
  confidence_intervals_invariant_amended (fun x => x) [100] [0, 1/100] (by simp)
    (by intro p hp; rw [List.mem_singleton.mp hp]; norm_num)
    (fun _ hx => hx)

/-! ## FinancialAnalyzer (src/core/financial_analyzer.py)

`TextBlob(text).sentiment.polarity` is an external library value; the
embedding takes it as the parameter `textblobPolarity`, so the sentiment
theorem quantifies over it.  Python's `str.split()` with no argument splits
on whitespace runs and drops empty pieces; `str.strip()` maps to
`String.trim`. -/

/-- Character-level lowercasing (`str.lower()`; ASCII on this data). -/
def strToLower (s : String) : String := String.mk (s.toList.map Char.toLower)

/-- Helper for `pySplit`: accumulate the current token (reversed) while
walking the characters. -/
def splitWhitespaceAux : List Char → List Char → List String
  | [], acc => if acc.isEmpty then [] else [String.mk acc.reverse]
  | c :: rest, acc =>
      if c.isWhitespace then
        (if acc.isEmpty then [] else [String.mk acc.reverse]) ++ splitWhitespaceAux rest []
      else splitWhitespaceAux rest (c :: acc)

/-- Python `s.split()` (no argument): whitespace-separated tokens, empty
pieces dropped. -/
def pySplit (s : String) : List String := splitWhitespaceAux s.toList []

/-- Python `s.strip()`: drop whitespace from both ends. -/
def pyStripWs (s : String) : String :=
  String.mk (((s.toList.dropWhile Char.isWhitespace).reverse.dropWhile
    Char.isWhitespace).reverse)

/-- Helper for `splitOnDot`. -/
def splitOnDotAux : List Char → List Char → List String
  | [], acc => [String.mk acc.reverse]
  | c :: rest, acc =>
      if c = '.' then String.mk acc.reverse :: splitOnDotAux rest []
      else splitOnDotAux rest (c :: acc)

/-- Python `s.split('.')`. -/
def splitOnDot (s : String) : List String := splitOnDotAux s.toList []

/-- First-occurrence deduplication (`list(set(xs))` up to Python's
unspecified set iteration order; see the section comment). -/
def dedupAux {α : Type} [DecidableEq α] : List α → List α → List α
  | [], _ => []
  | x :: xs, seen =>
      if seen.contains x then dedupAux xs seen else x :: dedupAux xs (x :: seen)

/-- First-occurrence deduplication. -/
def dedupKeepFirst {α : Type} [DecidableEq α] (l : List α) : List α := dedupAux l []

/-- `self.positive_words` (a Python set, modelled as the literal list). -/
def positiveWords : List String :=
  ["growth", "increase", "profit", "strong", "excellent", "outstanding", "improved",
   "expansion", "success"]

/-- `self.negative_words`. -/
def negativeWords : List String :=
  ["decline", "loss", "decrease", "weak", "poor", "challenging", "difficult",
   "concern", "risk"]

/-- `words = set(text.lower().split())`: distinct lowercased tokens. -/
def textWordSet (text : String) : List String := dedupKeepFirst (pySplit (strToLower text))

/-- `positive_count = len(words & self.positive_words)`. -/
def positiveCount (text : String) : ℕ :=
  ((textWordSet text).filter fun w => positiveWords.contains w).length

/-- `negative_count = len(words & self.negative_words)`. -/
def negativeCount (text : String) : ℕ :=
  ((textWordSet text).filter fun w => negativeWords.contains w).length

/-- The keyword adjustment of `analyze_sentiment`: clamp the TextBlob
polarity up to at least 0.1 when positive keywords strictly dominate, down
to at most -0.1 when negative keywords strictly dominate. -/
def adjustedPolarity (textblobPolarity : ℚ) (text : String) : ℚ :=
  if positiveCount text > negativeCount text then max textblobPolarity (1/10)
  else if negativeCount text > positiveCount text then min textblobPolarity (-(1/10))
  else textblobPolarity

/-- The classification step of `analyze_sentiment`. -/
def sentimentLabel (polarity : ℚ) : String :=
  if polarity > 1/10 then "Positive"
  else if polarity < -(1/10) then "Negative"
  else "Neutral"

/-- `FinancialAnalyzer.analyze_sentiment`: returns `(label, polarity)`. -/
def analyzeSentiment (textblobPolarity : ℚ) (text : String) : String × ℚ :=
  (sentimentLabel (adjustedPolarity textblobPolarity text),
   adjustedPolarity textblobPolarity text)

theorem sentimentLabel_iff (q : ℚ) :
    (sentimentLabel q = "Positive" ↔ q > 1/10) ∧
    (sentimentLabel q = "Negative" ↔ q < -(1/10)) ∧
    (sentimentLabel q = "Neutral" ↔ ¬ q > 1/10 ∧ ¬ q < -(1/10)) := by
  rw [sentimentLabel]
  split_ifs with h1 h2
  · refine ⟨⟨fun _ => h1, fun _ => rfl⟩, ⟨fun h => absurd h (by decide), fun h => ?_⟩,
      ⟨fun h => absurd h (by decide), fun h => absurd h1 h.1⟩⟩
    linarith
  · exact ⟨⟨fun h => absurd h (by decide), fun h => absurd h h1⟩,
      ⟨fun _ => h2, fun _ => rfl⟩,
      ⟨fun h => absurd h (by decide), fun h => absurd h2 h.2⟩⟩
  · exact ⟨⟨fun h => absurd h (by decide), fun h => absurd h h1⟩,
      ⟨fun h => absurd h (by decide), fun h => absurd h h2⟩,
      ⟨fun _ => ⟨h1, h2⟩, fun _ => rfl⟩⟩

/-- C6.  Keyword-set sentiment heuristic: the label is determined by the
returned polarity ("Positive" iff > 0.1, "Negative" iff < -0.1, "Neutral"
otherwise), strict positive-keyword dominance forces polarity ≥ 0.1 (so the
label is never "Negative"), and strict negative dominance forces polarity
≤ -0.1 (so the label is never "Positive"). -/
theorem sentiment_keyword_heuristic (textblobPolarity : ℚ) (text : String) :
    ((analyzeSentiment textblobPolarity text).1 = "Positive" ↔
      (analyzeSentiment textblobPolarity text).2 > 1/10) ∧
    ((analyzeSentiment textblobPolarity text).1 = "Negative" ↔
      (analyzeSentiment textblobPolarity text).2 < -(1/10)) ∧
    ((analyzeSentiment textblobPolarity text).1 = "Neutral" ↔
      ¬ (analyzeSentiment textblobPolarity text).2 > 1/10 ∧
      ¬ (analyzeSentiment textblobPolarity text).2 < -(1/10)) ∧
    (positiveCount text > negativeCount text →
      1/10 ≤ (analyzeSentiment textblobPolarity text).2 ∧
      (analyzeSentiment textblobPolarity text).1 ≠ "Negative") ∧
    (negativeCount text > positiveCount text →
      (analyzeSentiment textblobPolarity text).2 ≤ -(1/10)) := by
  have hiff := sentimentLabel_iff (adjustedPolarity textblobPolarity text)
  refine ⟨hiff.1, hiff.2.1, hiff.2.2, ?_, ?_⟩
  · intro hdom
    have hp : 1/10 ≤ adjustedPolarity textblobPolarity text := by
      rw [adjustedPolarity, if_pos hdom]
      exact le_max_right _ _
    refine ⟨hp, fun hlab => ?_⟩
    have := hiff.2.1.mp hlab
    linarith
  · intro hdom
    have hnd : ¬ positiveCount text > negativeCount text := by omega
    rw [show (analyzeSentiment textblobPolarity text).2 =
      adjustedPolarity textblobPolarity text from rfl,
      adjustedPolarity, if_neg hnd, if_pos hdom]
    exact min_le_right _ _

/-- Witness for C6: "growth strong decline" has two positive keywords and
one negative keyword, so even a very negative TextBlob polarity is clamped
to 0.1 and the label is not "Negative". -/
theorem sentiment_keyword_heuristic_witness :
    1/10 ≤ (analyzeSentiment (-1) "growth strong decline").2 ∧
    (analyzeSentiment (-1) "growth strong decline").1 ≠ "Negative" :=
  (sentiment_keyword_heuristic (-1) "growth strong decline").2.2.2.1 (by decide)

/-! ### Q&A fallback (`ai_powered_qa` / `_get_fallback_answer`)

The hosted-LLM call `_get_ai_answer` is an external HTTP request; it is
taken as the parameter `aiAnswer`, and `ai_powered_qa` (on a cache miss) is
modelled as returning the answer paired with a flag recording whether the
hosted-LLM path was taken.  The fallback's `list(set(...))` dedup uses
Python's unspecified set iteration order; it is modelled as first-occurrence
dedup (`eraseDups`).  The `re.findall` number/date extractions are modelled
by character-level scanners implementing those regexes (word boundaries,
greedy counts, leftmost alternation). -/

/-- The truthiness test `self.api_key and self.api_key != "demo"`:
None and the empty string are falsy. -/
def apiKeyUsable : Option String → Bool
  | none => false
  | some k => k != "" && k != "demo"

/-- Characters stripped from question words: `word.strip('?.,!()[]')`. -/
def questionStripChars : List Char := ['?', '.', ',', '!', '(', ')', '[', ']']

/-- Python `w.strip(chars)`: drop the given characters from both ends. -/
def pyStripChars (w : String) : String :=
  String.mk (((w.toList.dropWhile fun c => questionStripChars.contains c).reverse.dropWhile
    fun c => questionStripChars.contains c).reverse)

/-- The stop-word set excluded from question words. -/
def questionStopWords : List String :=
  ["what", "how", "when", "where", "why", "who", "which", "the", "and", "or", "but"]

/-- `question_words`: words of the lowercased question longer than 3
characters and not stop words, stripped of punctuation. -/
def questionWords (question : String) : List String :=
  (pySplit (strToLower question)).filterMap fun w =>
    if 3 < w.length ∧ ¬ questionStopWords.contains w then some (pyStripChars w) else none

/-- `sentences`: the text split on '.', stripped, keeping the non-empty
pieces longer than 20 characters. -/
def fallbackSentences (text : String) : List String :=
  ((splitOnDot text).map pyStripWs).filter fun s => s != "" && decide (20 < s.length)

/-- Bool test for `pat` occurring as a contiguous sublist. -/
def listIsInfix {α : Type} [DecidableEq α] (pat : List α) : List α → Bool
  | [] => pat.isEmpty
  | c :: rest => pat.isPrefixOf (c :: rest) || listIsInfix pat rest

/-- Python `pat in s` substring test. -/
def strContainsSub (s pat : String) : Bool := listIsInfix pat.toList s.toList

/-- `s[:n]` by code points. -/
def strTake (s : String) (n : ℕ) : String := String.mk (s.toList.take n)

/-- The scoring of one sentence in `_get_fallback_answer`: None when no
question word occurs in it, otherwise `(sentence, score, index)` with
keyword, digit, financial-term, indicator-term and position bonuses. -/
def scoreSentence (questionWs : List String) (numSentences i : ℕ) (sentence : String) :
    Option (String × ℕ × ℕ) :=
  let sentenceLower := strToLower sentence
  let matchCount := questionWs.countP fun w => strContainsSub sentenceLower w
  if matchCount = 0 then none
  else
    let score := matchCount * 4
    let score := if sentence.toList.any Char.isDigit then score + 3 else score
    let score := if ["million", "billion", "%", "quarter", "year", "revenue", "profit",
        "growth"].any (fun t => strContainsSub sentenceLower t) then score + 2 else score
    let score := if ["important", "key", "main", "significant", "major"].any
        (fun t => strContainsSub sentenceLower t) then score + 2 else score
    let score := if (i : ℚ) < (numSentences : ℚ) * (3/10) then score + 1 else score
    some (sentence, score, i)

/-- Stable insertion for descending sort by score (`list.sort(key=score,
reverse=True)` is stable: an earlier element precedes later equal-scored ones). -/
def insertByScoreDesc (x : String × ℕ × ℕ) :
    List (String × ℕ × ℕ) → List (String × ℕ × ℕ)
  | [] => [x]
  | y :: ys => if y.2.1 ≤ x.2.1 then x :: y :: ys else y :: insertByScoreDesc x ys

/-- Stable descending sort by score. -/
def sortByScoreDesc : List (String × ℕ × ℕ) → List (String × ℕ × ℕ)
  | [] => []
  | x :: xs => insertByScoreDesc x (sortByScoreDesc xs)

/-- Regex `\w`: alphanumeric or underscore. -/
def isWordChar (c : Char) : Bool := c.isAlphanum || c == '_'

/-- Regex `\b` between a just-matched final character and the rest. -/
def boundaryAfter (lastc : Char) (rest : List Char) : Bool :=
  match rest with
  | [] => isWordChar lastc
  | c :: _ => isWordChar lastc != isWordChar c

/-- Candidates for the optional fraction `(?:\.\d+)?`, greedy first. -/
def fracCandidates (cs : List Char) : List (List Char × List Char) :=
  (match cs with
   | '.' :: r =>
      let f := r.takeWhile Char.isDigit
      if f.isEmpty then [] else [('.' :: f, r.dropWhile Char.isDigit)]
   | _ => []) ++ [([], cs)]

/-- The unit alternatives of the Key Figures regex, in alternation order. -/
def numUnits : List String := ["million", "billion", "thousand", "M", "B", "K"]

/-- `\s*(?:million|billion|thousand|M|B|K)`. -/
def matchUnitSuffix (cs : List Char) : Option (List Char × List Char) :=
  let ws := cs.takeWhile Char.isWhitespace
  let rest := cs.dropWhile Char.isWhitespace
  numUnits.findSome? fun u =>
    let ul := u.toList
    if rest.take ul.length = ul then some (ws ++ ul, rest.drop ul.length) else none

/-- Candidates for the optional suffix `(?:%|\s*(?:million|...))?`,
in backtracking order: '%', unit, empty. -/
def suffixCandidates (cs : List Char) : List (List Char × List Char) :=
  (match cs with
   | '%' :: rest => [(['%'], rest)]
   | _ => []) ++
  (match matchUnitSuffix cs with
   | some p => [p]
   | none => []) ++ [([], cs)]

/-- One attempt of `\d+(?:\.\d+)?(?:%|\s*(?:million|...))?\b` at the head of
`cs` (the leading `\b` is checked by the caller). -/
def matchNumberAt (cs : List Char) : Option (List Char × List Char) :=
  let ds := cs.takeWhile Char.isDigit
  if ds.isEmpty then none
  else
    let rest1 := cs.dropWhile Char.isDigit
    (((fracCandidates rest1).flatMap fun fc =>
        (suffixCandidates fc.2).map fun sc => (ds ++ fc.1 ++ sc.1, sc.2)).find?
      fun m => boundaryAfter (m.1.getLastD ' ') m.2)

/-- Left-to-right scan for the Key Figures regex, fuelled by the remaining
length; `prev` is the character before the current position. -/
def scanNumbersAux : ℕ → Option Char → List Char → List String
  | 0, _, _ => []
  | _ + 1, _, [] => []
  | fuel + 1, prev, c :: rest =>
      let boundaryOk := match prev with
        | some p => !isWordChar p
        | none => true
      if boundaryOk then
        match matchNumberAt (c :: rest) with
        | some (matched, remaining) =>
            String.mk matched :: scanNumbersAux fuel (some (matched.getLastD ' ')) remaining
        | none => scanNumbersAux fuel (some c) rest
      else scanNumbersAux fuel (some c) rest

/-- `re.findall(r'\b\d+(?:\.\d+)?(?:%|\s*(?:million|billion|thousand|M|B|K))?\b', s)`. -/
def findNumbers (s : String) : List String := scanNumbersAux s.length none s.toList

/-- Greedy candidates for `\d{minN,maxN}`, longest first. -/
def digitTakeCandidates (minN maxN : ℕ) (cs : List Char) : List (List Char × List Char) :=
  let avail := min (cs.takeWhile Char.isDigit).length maxN
  (List.range (avail + 1)).reverse.filterMap fun n =>
    if minN ≤ n then some (cs.take n, cs.drop n) else none

/-- The slash-or-dash date alternative: one or two digits, a slash or dash,
one or two digits, a slash or dash, two to four digits, then a boundary. -/
def matchSlashDate (cs : List Char) : Option (List Char × List Char) :=
  (digitTakeCandidates 1 2 cs).findSome? fun d1 =>
    match d1.2 with
    | s1 :: r1 =>
        if s1 = '/' ∨ s1 = '-' then
          (digitTakeCandidates 1 2 r1).findSome? fun d2 =>
            match d2.2 with
            | s2 :: r2 =>
                if s2 = '/' ∨ s2 = '-' then
                  (digitTakeCandidates 2 4 r2).findSome? fun d3 =>
                    if ¬ d3.1.isEmpty ∧ boundaryAfter (d3.1.getLastD ' ') d3.2 then
                      some (d1.1 ++ [s1] ++ d2.1 ++ [s2] ++ d3.1, d3.2)
                    else none
                else none
            | [] => none
        else none
    | [] => none

/-- `\d{4}\b`. -/
def matchYear (cs : List Char) : Option (List Char × List Char) :=
  let ds := cs.take 4
  if ds.length = 4 ∧ ds.all Char.isDigit ∧ boundaryAfter (ds.getLastD ' ') (cs.drop 4) then
    some (ds, cs.drop 4)
  else none

/-- `Q[1-4]\s+\d{4}\b`. -/
def matchQuarter (cs : List Char) : Option (List Char × List Char) :=
  match cs with
  | 'Q' :: q :: rest =>
      if q = '1' ∨ q = '2' ∨ q = '3' ∨ q = '4' then
        let ws := rest.takeWhile Char.isWhitespace
        let r2 := rest.dropWhile Char.isWhitespace
        if ¬ ws.isEmpty then
          match matchYear r2 with
          | some (y, r3) => some ('Q' :: q :: (ws ++ y), r3)
          | none => none
        else none
      else none
  | _ => none

/-- The month-name alternatives of the Relevant Dates regex. -/
def monthNames : List String :=
  ["January", "February", "March", "April", "May", "June", "July", "August",
   "September", "October", "November", "December"]

/-- `(?:January|...|December)\s+\d{4}\b`. -/
def matchMonthDate (cs : List Char) : Option (List Char × List Char) :=
  monthNames.findSome? fun m =>
    let ml := m.toList
    if cs.take ml.length = ml then
      let rest := cs.drop ml.length
      let ws := rest.takeWhile Char.isWhitespace
      let r2 := rest.dropWhile Char.isWhitespace
      if ¬ ws.isEmpty then
        match matchYear r2 with
        | some (y, r3) => some (ml ++ ws ++ y, r3)
        | none => none
      else none
    else none

/-- The date alternation, leftmost alternative first. -/
def matchDateAt (cs : List Char) : Option (List Char × List Char) :=
  match matchSlashDate cs with
  | some r => some r
  | none =>
      match matchYear cs with
      | some r => some r
      | none =>
          match matchQuarter cs with
          | some r => some r
          | none => matchMonthDate cs

/-- Left-to-right scan for the Relevant Dates regex. -/
def scanDatesAux : ℕ → Option Char → List Char → List String
  | 0, _, _ => []
  | _ + 1, _, [] => []
  | fuel + 1, prev, c :: rest =>
      let boundaryOk := match prev with
        | some p => !isWordChar p
        | none => true
      if boundaryOk then
        match matchDateAt (c :: rest) with
        | some (matched, remaining) =>
            String.mk matched :: scanDatesAux fuel (some (matched.getLastD ' ')) remaining
        | none => scanDatesAux fuel (some c) rest
      else scanDatesAux fuel (some c) rest

/-- `re.findall` for the dates pattern of `_get_fallback_answer`. -/
def findDates (s : String) : List String := scanDatesAux s.length none s.toList

/-- The no-keyword-match message of `_get_fallback_answer`. -/
def noMatchMsg (question : String) : String :=
  "I couldn\x27t find specific information to answer \x27" ++ question ++
  "\x27 in the document. The document appears to cover other topics that might be of interest."

/-- The answer assembly of `_get_fallback_answer` once at least one sentence
scored: primary answer, supporting sentences at ≥ 50% of the top score, key
figures, relevant dates, additional context, related information. -/
def buildFallbackAnswer (questionWs : List String)
    (sentenceScores : List (String × ℕ × ℕ)) : String :=
  let sorted := sortByScoreDesc sentenceScores
  let topSentences := sorted.take 5
  let primary := topSentences.headD ("", 0, 0)
  let part1 := "**Primary Answer:**\n" ++ primary.1
  let supportingSentences := ((topSentences.drop 1).take 2).filterMap fun t =>
    if (t.2.1 : ℚ) ≥ (primary.2.1 : ℚ) * (1/2) then some t.1 else none
  let part2 := if supportingSentences.isEmpty then ""
    else "\n\n**Supporting Information:**" ++
      String.join (supportingSentences.enum.map fun p =>
        "\n" ++ toString (p.1 + 1) ++ ". " ++ p.2)
  let allRelevantText := String.intercalate " " ((topSentences.take 3).map (·.1))
  let numbers := findNumbers allRelevantText
  let part3 := if numbers.isEmpty then ""
    else "\n\n**Key Figures:** " ++
      String.intercalate ", " ((dedupKeepFirst numbers).take 5)
  let dates := findDates allRelevantText
  let part4 := if dates.isEmpty then ""
    else "\n\n**Relevant Dates:** " ++
      String.intercalate ", " ((dedupKeepFirst dates).take 3)
  let part5 := if 3 < sentenceScores.length then
      "\n\n**Additional Context:** The document contains " ++
      toString sentenceScores.length ++
      " relevant sections related to your question, providing comprehensive coverage of this topic."
    else ""
  let top3 := (topSentences.take 3).map (·.1)
  let relatedTopic := questionWs.findSome? fun w =>
    ((sorted.drop 3).take 3).findSome? fun t =>
      if strContainsSub (strToLower t.1) w && !top3.contains t.1 then
        some (if 100 < t.1.length then strTake t.1 100 ++ "..." else t.1)
      else none
  let part6 := match relatedTopic with
    | some r => "\n\n**Related Information:** " ++ r
    | none => ""
  part1 ++ part2 ++ part3 ++ part4 ++ part5 ++ part6

/-- `FinancialAnalyzer._get_fallback_answer` (the unused `paragraphs` list of
the source is omitted; it feeds nothing). -/
def getFallbackAnswer (text question : String) : String :=
  let questionWs := questionWords question
  let sentences := fallbackSentences text
  if sentences.isEmpty then "No content available to answer the question."
  else
    let sentenceScores := sentences.enum.filterMap fun p =>
      scoreSentence questionWs sentences.length p.1 p.2
    if sentenceScores.isEmpty then noMatchMsg question
    else buildFallbackAnswer questionWs sentenceScores

/-- `FinancialAnalyzer.ai_powered_qa` on a cache miss: dispatches to the
hosted LLM only when the API key is usable.  The Bool records whether a
hosted-LLM request is issued. -/
def aiPoweredQA (apiKey : Option String) (aiAnswer : String → String → String)
    (text question : String) : String × Bool :=
  if apiKeyUsable apiKey then (aiAnswer text question, true)
  else (getFallbackAnswer text question, false)

/-- C5.  Q&A fallback when no LLM key is configured: with the key unset or
equal to "demo", `ai_powered_qa` (on a cache miss) returns exactly
`_get_fallback_answer` and issues no hosted-LLM request; and when the text
has no (stripped) sentence longer than 20 characters the fallback returns
the fixed "No content available" string. -/
theorem qa_fallback_without_llm_key (apiKey : Option String)
    (aiAnswer : String → String → String) (text question : String)
    (hkey : apiKey = none ∨ apiKey = some "demo") :
    aiPoweredQA apiKey aiAnswer text question = (getFallbackAnswer text question, false) ∧
    (fallbackSentences text = [] →
      getFallbackAnswer text question = "No content available to answer the question.") := by
  constructor
  · rcases hkey with h | h <;> subst h <;> simp [aiPoweredQA, apiKeyUsable]
  · intro hempty
    rw [getFallbackAnswer]
    simp [hempty]

/-- Witness for C5: with no API key and an empty document, the fallback path
is taken and returns the fixed no-content answer. -/
theorem qa_fallback_without_llm_key_witness :
    aiPoweredQA none (fun _ _ => "LLM answer") "" "q" =
      (getFallbackAnswer "" "q", false) ∧
    getFallbackAnswer "" "q" = "No content available to answer the question." := by
  have h := qa_fallback_without_llm_key none (fun _ _ => "LLM answer") "" "q" (Or.inl rfl)
  exact ⟨h.1, h.2 (by decide)⟩

/-! ## AdvancedFileProcessor (src/file_processor.py)

`process_file` dispatches on `uploaded_file.type` through the `processors`
dict, whose ten keys coincide exactly with the keys of
`self.supported_formats`.  Each per-format routine is a call into a
third-party parsing library wrapped in try/except; its outcome is modelled
by `RoutineOutcome`: it raised, or it returned `(content, metadata)` with
either component possibly None.  The enclosing try of `process_file`
converts every exception — including the `metadata.update` on a None
metadata — into `(None, None)`. -/

/-- The ten supported MIME types (keys of both `supported_formats` and the
`processors` dispatch dict). -/
def supportedFormats : List String :=
  ["text/plain", "application/pdf",
   "application/vnd.openxmlformats-officedocument.wordprocessingml.document",
   "application/vnd.openxmlformats-officedocument.presentationml.presentation",
   "application/vnd.openxmlformats-officedocument.spreadsheetml.sheet",
   "application/vnd.ms-excel", "text/csv", "application/json",
   "application/xml", "text/xml"]

/-- Outcome of the selected per-format extraction routine. -/
inductive RoutineOutcome where
  | raises
  | returns (content : Option String) (meta : Option (List (String × String)))

/-- Python `dict.update`: entries of `newEntries` overwrite, others kept. -/
def dictUpdate (m newEntries : List (String × String)) : List (String × String) :=
  (m.filter fun kv => !(newEntries.any fun kv2 => kv2.1 == kv.1)) ++ newEntries

/-- `AdvancedFileProcessor.process_file`: route on the declared MIME type;
unsupported type, a raising routine, a None/empty content, or a missing
metadata dict all yield `(None, None)`; a non-empty content is returned with
the routine metadata updated by the file info. -/
def processFile (fileType : String) (fileInfo : List (String × String))
    (outcome : RoutineOutcome) : Option String × Option (List (String × String)) :=
  if supportedFormats.contains fileType then
    match outcome with
    | .raises => (none, none)
    | .returns content meta =>
        match content, meta with
        | some c, some m =>
            if c = "" then (none, none) else (some c, some (dictUpdate m fileInfo))
        | some _, none => (none, none)
        | none, _ => (none, none)
  else (none, none)

/-- C4.  MIME-type dispatch and unsupported formats: `process_file` selects
the routine solely from the declared MIME type; any type outside the ten
supported ones yields `(None, None)`, as does a routine that raises (the
exception is never propagated) or yields no/empty content. -/
theorem process_file_dispatch_and_errors (fileType : String)
    (fileInfo : List (String × String)) (outcome : RoutineOutcome) :
    (¬ supportedFormats.contains fileType →
      processFile fileType fileInfo outcome = (none, none)) ∧
    (processFile fileType fileInfo .raises = (none, none)) ∧
    (∀ meta, processFile fileType fileInfo (.returns none meta) = (none, none)) ∧
    (∀ meta, processFile fileType fileInfo (.returns (some "") meta) = (none, none)) := by
  refine ⟨fun h => by rw [processFile.eq_def, if_neg h], ?_, ?_, ?_⟩
  · by_cases h : supportedFormats.contains fileType
    · rw [processFile.eq_def, if_pos h]
    · rw [processFile.eq_def, if_neg h]
  · intro meta
    by_cases h : supportedFormats.contains fileType
    · rw [processFile.eq_def, if_pos h]
    · rw [processFile.eq_def, if_neg h]
  · intro meta
    by_cases h : supportedFormats.contains fileType
    · rw [processFile.eq_def, if_pos h]
      cases meta <;> simp
    · rw [processFile.eq_def, if_neg h]

/-- Witness for C4: an image MIME type is not among the ten supported
formats, so `process_file` returns `(None, None)` for it. -/
theorem process_file_dispatch_and_errors_witness :
    processFile "image/png" [] .raises = (none, none) :=
  (process_file_dispatch_and_errors "image/png" [] .raises).1 (by decide)

/-- One page as seen by `_process_pdf`: `page.extract_text()` (possibly
None), `page.extract_tables()` (rows of possibly-None cells), and the
`page.images` count.  These come from the external pdfplumber parser. -/
structure PdfPage where
  text : Option String
  tables : List (List (List (Option String)))
  images : ℕ

/-- The metadata dict `_process_pdf` returns. -/
structure PdfMeta where
  pages : ℕ
  tables : ℕ
  images : ℕ
  characters : ℕ
  words : ℕ

/-- One extracted table block: header line then the non-empty rows, cells
rendered by `str(cell) if cell else ""` and joined with " | ". -/
def renderPdfTable (pageIdx tableIdx : ℕ) (table : List (List (Option String))) :
    String :=
  "\n--- Table " ++ toString (tableIdx + 1) ++ " on Page " ++ toString (pageIdx + 1) ++
    " ---\n" ++
  String.join (table.filterMap fun row =>
    if row.isEmpty then none
    else some (String.intercalate " | " (row.map fun cell => cell.getD "") ++ "\n"))

/-- The content contributed by one page: the page text (when truthy) under a
page header, then the page's tables. -/
def renderPdfPage (pageIdx : ℕ) (page : PdfPage) : String :=
  (match page.text with
   | some t =>
      if t = "" then ""
      else "\n--- Page " ++ toString (pageIdx + 1) ++ " ---\n" ++ t ++ "\n"
   | none => "") ++
  String.join (page.tables.enum.map fun jt => renderPdfTable pageIdx jt.1 jt.2)

/-- The full content string `_process_pdf` accumulates. -/
def pdfContent (pages : List PdfPage) : String :=
  String.join (pages.enum.map fun ip => renderPdfPage ip.1 ip.2)

/-- `AdvancedFileProcessor._process_pdf` on a parsed document. -/
def processPdf (pages : List PdfPage) : String × PdfMeta :=
  (pdfContent pages,
   { pages := pages.length
     tables := (pages.map fun p => p.tables.length).sum
     images := (pages.map fun p => p.images).sum
     characters := (pdfContent pages).length
     words := (pySplit (pdfContent pages)).length })

/-- A parsed CSV as produced by `pd.read_csv`: column names, per-column
dtype strings, the numeric column names, and the data rows (None = NaN,
other cells already rendered by `str`). -/
structure CsvData where
  columns : List String
  dtypes : List String
  numericCols : List String
  rows : List (List (Option String))

/-- The metadata dict `_process_csv` returns. -/
structure CsvMeta where
  rows : ℕ
  columns : ℕ
  numeric_columns : ℕ
  missing_values : ℕ
  characters : ℕ
  words : ℕ

/-- One sample-data line: `"col: val"` for the non-NaN cells, joined with
`" | "`; skipped entirely when every cell is NaN. -/
def renderCsvSampleRow (columns : List String) (row : List (Option String)) :
    Option String :=
  let rowData := (columns.zip row).filterMap fun cv => cv.2.map fun v => cv.1 ++ ": " ++ v
  if rowData.isEmpty then none
  else some (String.intercalate " | " rowData ++ "\n")

/-- The full content string `_process_csv` accumulates.  The statistical
summary block formats floating-point `describe()` statistics; that text is
taken as the parameter `numericStats` (it contributes to the content string
exactly where the source emits it, and the count consistency below holds for
every value of it). -/
def csvContent (data : CsvData) (numericStats : String) : String :=
  let sampleSize := min 30 data.rows.length
  "CSV FILE ANALYSIS\n" ++ String.mk (List.replicate 50 '=') ++ "\n\n" ++
  "Dimensions: " ++ toString data.rows.length ++ " rows × " ++
    toString data.columns.length ++ " columns\n" ++
  "Columns: " ++ String.intercalate ", " data.columns ++ "\n\n" ++
  "DATA TYPES:\n" ++
  String.join ((data.columns.zip data.dtypes).map fun cd => cd.1 ++ ": " ++ cd.2 ++ "\n") ++
  "\n" ++
  (if data.numericCols.isEmpty then ""
   else "STATISTICAL SUMMARY:\n" ++ numericStats ++ "\n") ++
  "SAMPLE DATA (First 30 rows):\n" ++
  String.join ((data.rows.take sampleSize).filterMap (renderCsvSampleRow data.columns)) ++
  (if sampleSize < data.rows.length then
    "\n... (" ++ toString (data.rows.length - sampleSize) ++ " more rows)\n"
   else "")

/-- `AdvancedFileProcessor._process_csv` on a parsed CSV. -/
def processCsv (data : CsvData) (numericStats : String) : String × CsvMeta :=
  (csvContent data numericStats,
   { rows := data.rows.length
     columns := data.columns.length
     numeric_columns := data.numericCols.length
     missing_values := (data.rows.map fun r => r.countP fun c => c.isNone).sum
     characters := (csvContent data numericStats).length
     words := (pySplit (csvContent data numericStats)).length })

/-- C7.  Extraction returns text plus consistent counts: for every parsed
document, the returned metadata's `words` equals the number of
whitespace-separated tokens of the returned content and `characters` its
length; `_process_pdf` reports `pages` equal to the document's page count
and `_process_csv` reports `rows` equal to the number of parsed data rows. -/
theorem extraction_counts_consistent :
    (∀ pages : List PdfPage,
      (processPdf pages).2.words = (pySplit (processPdf pages).1).length ∧
      (processPdf pages).2.characters = (processPdf pages).1.length ∧
      (processPdf pages).2.pages = pages.length) ∧
    (∀ (data : CsvData) (numericStats : String),
      (processCsv data numericStats).2.words =
        (pySplit (processCsv data numericStats).1).length ∧
      (processCsv data numericStats).2.characters =
        (processCsv data numericStats).1.length ∧
      (processCsv data numericStats).2.rows = data.rows.length) := by
  refine ⟨fun pages => ⟨rfl, rfl, rfl⟩, fun data numericStats => ⟨?_, ?_, rfl⟩⟩
  · simp only [processCsv]
  · simp only [processCsv]

end FinDocGPT
